import Mathlib

set_option maxRecDepth 8192

/-!
Verification of session-log rotation and session reconciliation for the
ralph-wiggum plugin suite.

Part 1 embeds `src/plugins/ralph-wiggum-pro/scripts/rotate-session-log.ts`.
The script reads the non-blank lines of `sessions.jsonl`, groups the
JSON-parsable lines by effective identity (`loop_id`, with `session_id` as
falsy fallback), selects the oldest complete (start + completion) sessions for
purging, filters the lines, validates the result and commits atomically,
restoring a backup on any validation failure.

File-system effects are made explicit: the embedded `rotateSessionLog` maps
the list of non-blank log lines to `(result, log lines afterwards, whether a
backup file remains)`.  `JSON.parse` is abstracted into the input: a `Line`
is either `malformed` (parse fails) or `ok` carrying the fields the script
inspects.  `localeCompare` ordering is modelled as code-point order on
strings; backup-write failure and filesystem exceptions are not modelled
(no claim concerns them).
-/

/-- Status discriminator of a parsed record: the script compares the `status`
field against the strings "active" and "completed"; anything else is `other`. -/
inductive RStatus where
  | active
  | completed
  | other
deriving DecidableEq, Repr

/-- Projection of a successfully JSON-parsed log line onto the fields
`rotate-session-log.ts` inspects.  A missing loop_id is `none`; an empty
string loop_id is `some ""` and is treated as falsy by `effId`exactly as the
`||` chain in the source does. -/
structure REntry where
  session_id : String
  loop_id : Option String
  status : RStatus
  started_at : String
deriving DecidableEq, Repr

/-- One non-blank line of the log file: either the original text of a line
that fails `JSON.parse`, or the original text together with its parse. -/
inductive Line where
  | malformed (raw : String)
  | ok (raw : String) (entry : REntry)
deriving DecidableEq, Repr

/-- Does `JSON.parse` fail on this line? -/
def Line.isMalformed : Line → Bool
  | .malformed _ => true
  | .ok _ _ => false

/-- The parse result of a line, `none` for malformed lines. -/
def Line.parsed : Line → Option REntry
  | .malformed _ => none
  | .ok _ e => some e

/-- Effective identity of a parsed entry:
`entry.loop_id || entry.loop_id || entry.session_id` from the source, where
`||` skips falsy (missing or empty) values. -/
def effId (e : REntry) : String :=
  match e.loop_id with
  | some l => if l = "" then e.session_id else l
  | none => e.session_id

/-- MAX_SESSION_ENTRIES from the source. -/
def MAX_SESSION_ENTRIES : Nat := 100

/-- RotationResult from the source. -/
structure RotationResult where
  success : Bool
  entriesBefore : Nat
  entriesAfter : Nat
  sessionsPurged : Nat
  error : Option String
deriving DecidableEq, Repr

/-- One value of the byLoopId map: optional start and completion entries. -/
structure RGroup where
  start : Option REntry
  completion : Option REntry
deriving DecidableEq, Repr

/-- Record an entry in a group: "active" sets `start`, "completed" sets
`completion`, any other status leaves the group unchanged (but the map entry
is still created by `assocSet`). -/
def applyEntry (g : RGroup) (e : REntry) : RGroup :=
  match e.status with
  | .active => { g with start := some e }
  | .completed => { g with completion := some e }
  | .other => g

/-- `byLoopId.set loopId (applyEntry (byLoopId.get loopId || empty) e)` on an
association list with JS-Map insertion-order semantics: an existing key is
updated in place, a new key is appended at the end. -/
def assocSet (m : List (String × RGroup)) (k : String) (e : REntry) :
    List (String × RGroup) :=
  match m with
  | [] => [(k, applyEntry ⟨none, none⟩ e)]
  | (k0, g0) :: rest =>
    if k0 = k then (k0, applyEntry g0 e) :: rest
    else (k0, g0) :: assocSet rest k e

/-- Group all parsed entries by effective identity, in insertion order. -/
def groupByLoopId (entries : List REntry) : List (String × RGroup) :=
  entries.foldl (fun m e => assocSet m (effId e) e) []

/-- Lexicographic code-point comparison of character lists; `charListLe a b`
means `a` is not after `b`. -/
def charListLe : List Char → List Char → Bool
  | [], _ => true
  | _ :: _, [] => false
  | a :: as, b :: bs =>
    if a.toNat < b.toNat then true
    else if b.toNat < a.toNat then false
    else charListLe as bs

/-- Code-point order on strings, modelling `localeCompare`-based sorting. -/
def strLe (a b : String) : Bool :=
  charListLe a.data b.data

/-- Complete sessions (both start and completion present) as
`(loopId, startedAt)` pairs, sorted by `startedAt` ascending; JS `sort` is
stable and `localeCompare` is modelled as code-point order, so the stable
`insertionSort` computes the same list. -/
def completeSessions (groups : List (String × RGroup)) : List (String × String) :=
  List.insertionSort (fun a b => strLe a.2 b.2 = true)
    (groups.filterMap fun kg =>
      match kg.2.start, kg.2.completion with
      | some s, some _ => some (kg.1, s.started_at)
      | _, _ => none)

/-- The purge-selection loop of the source: walk the complete sessions oldest
first, skip any whose identity does not match exactly 2 parsed entries, add
the rest to the purge set while accumulating the matched-entry count, and
stop as soon as the count reaches `toRemove`.
Returns (purge identities, purged entry count). -/
def selectPurge (entries : List REntry) (toRemove : Nat) :
    List (String × String) → List String → Nat → List String × Nat
  | [], ids, cnt => (ids, cnt)
  | s :: rest, ids, cnt =>
    let loopEntries := entries.filter fun e => decide (effId e = s.1)
    if loopEntries.length ≠ 2 then
      selectPurge entries toRemove rest ids cnt
    else
      let ids2 := if s.1 ∈ ids then ids else ids ++ [s.1]
      let cnt2 := cnt + loopEntries.length
      if toRemove ≤ cnt2 then (ids2, cnt2)
      else selectPurge entries toRemove rest ids2 cnt2

/-- The filter step: keep a line unless it parses and its effective identity
is in the purge set; malformed lines are always kept. -/
def filteredLinesOf (lines : List Line) (purgeIds : List String) : List Line :=
  lines.filter fun l =>
    match l with
    | .malformed _ => true
    | .ok _ e => decide (effId e ∉ purgeIds)

/-- The validate-and-commit tail of `rotateSessionLog` (source lines 246–298):
the count check, the never-empty check and the re-parse check, each restoring
the original content and deleting the backup on failure; on success the
filtered lines are committed via atomic rename and the backup is deleted.
Returns (result, log lines afterwards, whether a backup file remains). -/
def validateAndCommit (lines filtered : List Line) (purgeIds : List String)
    (purgeCount entryCount : Nat) : RotationResult × List Line × Bool :=
  if (filtered.length : Int) ≠ (entryCount : Int) - (purgeCount : Int) then
    (⟨false, entryCount, entryCount, 0, some "Count mismatch"⟩, lines, false)
  else if filtered.length = 0 then
    (⟨false, entryCount, entryCount, 0,
      some "Rotation would delete all entries"⟩, lines, false)
  else if filtered.any Line.isMalformed then
    (⟨false, entryCount, entryCount, 0,
      some "Invalid JSON in filtered output"⟩, lines, false)
  else
    (⟨true, entryCount, filtered.length, purgeIds.length, none⟩, filtered, false)

/-- Embedding of `rotateSessionLog` from
`src/plugins/ralph-wiggum-pro/scripts/rotate-session-log.ts`, mapping the
non-blank lines of the log file to
(result, log lines afterwards, whether a backup file remains). -/
def rotateSessionLog (lines : List Line) : RotationResult × List Line × Bool :=
  let entryCount := lines.length
  if entryCount ≤ MAX_SESSION_ENTRIES then
    (⟨true, entryCount, entryCount, 0, none⟩, lines, false)
  else
    let entries := lines.filterMap Line.parsed
    let complete := completeSessions (groupByLoopId entries)
    if complete.isEmpty then
      (⟨true, entryCount, entryCount, 0, none⟩, lines, false)
    else
      let toRemove := min (entryCount - MAX_SESSION_ENTRIES) (entryCount / 2)
      let sel := selectPurge entries toRemove complete [] 0
      if sel.1.isEmpty then
        (⟨true, entryCount, entryCount, 0, none⟩, lines, false)
      else
        validateAndCommit lines (filteredLinesOf lines sel.1) sel.1 sel.2
          entryCount

/-- Zero-padded two-digit rendering of a small number, giving timestamps whose
code-point order agrees with numeric order. -/
def pad2 (n : Nat) : String :=
  if n < 10 then "0" ++ toString n else toString n

/-- A start line for complete session number `i` of the C1 scenario. -/
def c1StartLine (i : Nat) : Line :=
  .ok ("s" ++ toString i)
    ⟨"sess" ++ toString i, some ("L" ++ toString i), .active, "t" ++ pad2 i⟩

/-- The matching completion line for complete session number `i`. -/
def c1CompLine (i : Nat) : Line :=
  .ok ("c" ++ toString i)
    ⟨"sess" ++ toString i, some ("L" ++ toString i), .completed, ""⟩

/-- An incomplete (start-only) filler line with its own identity. -/
def c1Filler (i : Nat) : Line :=
  .ok ("f" ++ toString i) ⟨"x" ++ toString i, none, .active, "z"⟩

/-- A 202-line log: 51 complete two-line sessions followed by 100 incomplete
start lines.  With ceiling 100 this is over the limit, and the 50% clamp sets
the removal quota to `min (202 - 100) (202 / 2) = 101`. -/
def c1Input : List Line :=
  (List.range 51).foldr (fun i acc => c1StartLine i :: c1CompLine i :: acc)
    ((List.range 100).map c1Filler)

/-- A 101-line log holding exactly one complete session (2 lines) and 99
incomplete start lines: over the ceiling by one, so rotation purges the one
complete session and succeeds. -/
def c10Input : List Line :=
  c1StartLine 0 :: c1CompLine 0 :: (List.range 99).map c1Filler

/-!
Part 2: the Session Reconciler.

The current `server/services/log-parser.ts` (with `loop_id` identity,
liveness-marker orphan detection, orphaned-completion synthesis and
completion-promise extraction) is not among the provided sources — only its
test suite (`server/__tests__/log-parser.test.ts`), its callers and an older
revision keyed purely on `session_id` are.  The definitions below are
therefore modelled from the spec (§3, §4.2), with display constants
corroborated by the repository's test suite.  The Liveness Oracle and the
live-duration clock are passed in as the functions `marker` and `elapsed`.
-/

/-- Outcome carried by a completion event. -/
inductive Outcome where
  | success
  | max_iterations
  | cancelled
  | error
deriving DecidableEq, Repr

/-- The log-file string rendering of an outcome. -/
def Outcome.toText : Outcome → String
  | .success => "success"
  | .max_iterations => "max_iterations"
  | .cancelled => "cancelled"
  | .error => "error"

/-- Session-record status: active, orphaned, or a completion outcome. -/
inductive SStatus where
  | active
  | orphaned
  | success
  | max_iterations
  | cancelled
  | error
deriving DecidableEq, Repr

/-- The session-record status corresponding to a completion outcome. -/
def Outcome.toStatus : Outcome → SStatus
  | .success => .success
  | .max_iterations => .max_iterations
  | .cancelled => .cancelled
  | .error => .error

/-- Modelled from the spec: a start event (§3), status "active". -/
structure MStart where
  loop_id : Option String
  session_id : String
  project : String
  project_name : String
  state_file_path : Option String
  task : Option String
  started_at : String
  max_iterations : Nat
  completion_promise : Option String
deriving DecidableEq, Repr

/-- Modelled from the spec: a completion event (§3), status "completed". -/
structure MCompletion where
  loop_id : Option String
  session_id : String
  outcome : Outcome
  ended_at : String
  duration_seconds : Nat
  iterations : Nat
  error_reason : Option String
deriving DecidableEq, Repr

/-- A parsed log event: one of the two record kinds. -/
inductive MEvent where
  | start (s : MStart)
  | completion (c : MCompletion)
deriving DecidableEq, Repr

/-- Effective identity of an event: `loop_id` if present, else `session_id`
(spec §3 "Effective identity"). -/
def MEvent.effectiveId : MEvent → String
  | .start s => s.loop_id.getD s.session_id
  | .completion c => c.loop_id.getD c.session_id

/-- Modelled from the spec: the reconciled session record (§3). -/
structure SessionRec where
  loop_id : String
  session_id : String
  status : SStatus
  project : String
  project_name : String
  state_file_path : Option String
  task : String
  started_at : String
  ended_at : Option String
  duration_seconds : Nat
  iterations : Option Nat
  max_iterations : Nat
  completion_promise : Option String
  error_reason : Option String
deriving DecidableEq, Repr

/-- One group of the reconciler: optional start and completion events. -/
structure MGroup where
  start : Option MStart
  completion : Option MCompletion
deriving DecidableEq, Repr

/-- Record an event in its group. -/
def mApplyEvent (g : MGroup) : MEvent → MGroup
  | .start s => { g with start := some s }
  | .completion c => { g with completion := some c }

/-- Insertion-ordered map update for the reconciler's grouping step. -/
def mAssocSet (m : List (String × MGroup)) (k : String) (ev : MEvent) :
    List (String × MGroup) :=
  match m with
  | [] => [(k, mApplyEvent ⟨none, none⟩ ev)]
  | (k0, g0) :: rest =>
    if k0 = k then (k0, mApplyEvent g0 ev) :: rest
    else (k0, g0) :: mAssocSet rest k ev

/-- Modelled from the spec: group parsed events by effective identity into
start/completion pairs (§4.2 step 2), in first-seen order. -/
def groupEvents (events : List MEvent) : List (String × MGroup) :=
  events.foldl (fun m ev => mAssocSet m ev.effectiveId ev) []

/-- Characters that terminate a completion-promise value: whitespace, the
double quote (code point 34) and the single quote (code point 39). -/
def promiseStop (c : Char) : Bool :=
  c.isWhitespace || c.toNat = 34 || c.toNat = 39

/-- The characters of the flag text scanned for in the task field. -/
def flagChars : List Char :=
  "--completion-promise=".data

/-- Split a character list at the first occurrence of `flag`: returns the
text before the flag and the text after it, or `none` if absent. -/
def splitAtFlag (flag : List Char) : List Char → Option (List Char × List Char)
  | [] => none
  | c :: rest =>
    if (c :: rest).take flag.length = flag then
      some ([], (c :: rest).drop flag.length)
    else
      (splitAtFlag flag rest).map fun pr => (c :: pr.1, pr.2)

/-- Drop leading and trailing whitespace from a character list. -/
def trimChars (l : List Char) : List Char :=
  ((l.dropWhile Char.isWhitespace).reverse.dropWhile Char.isWhitespace).reverse

/-- Modelled from the spec (§4.2 step 4): scan the task text for
`--completion-promise=VALUE` with an optionally quoted VALUE; VALUE is the
run of non-whitespace, non-quote characters immediately following (only the
first token of a quoted multi-word value is captured).  Returns the captured
value together with the task text with the flag stripped and surrounding
whitespace trimmed, or `none` when the flag (or a non-empty value) is
absent. -/
def extractPromise (task : String) : Option (String × String) :=
  match splitAtFlag flagChars task.data with
  | none => none
  | some (pre, post) =>
    let post1 := match post with
      | c :: rest => if c.toNat = 34 ∨ c.toNat = 39 then rest else post
      | [] => []
    let value := post1.takeWhile fun c => !promiseStop c
    if value.isEmpty then none
    else
      let rest1 := post1.drop value.length
      let rest2 := match rest1 with
        | c :: r => if c.toNat = 34 ∨ c.toNat = 39 then r else rest1
        | [] => []
      some (⟨value⟩, ⟨trimChars (pre ++ rest2)⟩)

/-- Modelled from the spec (§4.2 step 4): the displayed task text and the
resolved completion promise of a start event: an explicit non-null
`completion_promise` is used verbatim (task left as-is), otherwise the task
text is scanned and stripped. -/
def resolveTaskPromise (s : MStart) : String × Option String :=
  match s.completion_promise with
  | some v => (s.task.getD "", some v)
  | none =>
    match extractPromise (s.task.getD "") with
    | some (v, t) => (t, some v)
    | none => (s.task.getD "", none)

/-- Modelled from the spec (§4.2 step 3): status of a start-only group — if
the start specifies a liveness marker path and the Liveness Oracle reports it
absent, the session is orphaned; otherwise it is active. -/
def startStatus (marker : String → Bool) (s : MStart) : SStatus :=
  match s.state_file_path with
  | some p => if marker p then .active else .orphaned
  | none => .active

/-- Modelled from the spec (§4.2 step 3, both-present case): the record of a
resolved group — status is the completion's outcome, duration, iterations and
error taken from the completion. -/
def fullRec (id : String) (s : MStart) (c : MCompletion) : SessionRec :=
  { loop_id := id, session_id := s.session_id,
    status := c.outcome.toStatus,
    project := s.project, project_name := s.project_name,
    state_file_path := s.state_file_path,
    task := (resolveTaskPromise s).1, started_at := s.started_at,
    ended_at := some c.ended_at,
    duration_seconds := c.duration_seconds,
    iterations := some c.iterations,
    max_iterations := s.max_iterations,
    completion_promise := (resolveTaskPromise s).2,
    error_reason := c.error_reason }

/-- Modelled from the spec (§4.2 steps 3 and 5, start-only case): active or
orphaned depending on the liveness marker, with a live duration. -/
def startOnlyRec (marker : String → Bool) (elapsed : String → Nat)
    (id : String) (s : MStart) : SessionRec :=
  { loop_id := id, session_id := s.session_id,
    status := startStatus marker s,
    project := s.project, project_name := s.project_name,
    state_file_path := s.state_file_path,
    task := (resolveTaskPromise s).1, started_at := s.started_at,
    ended_at := none,
    duration_seconds := elapsed s.started_at,
    iterations := none,
    max_iterations := s.max_iterations,
    completion_promise := (resolveTaskPromise s).2,
    error_reason := none }

/-- Modelled from the spec (§4.2 step 3, completion-only case): an orphaned
entry with synthesized display fields and the completion's own
timing/iteration fields. -/
def orphanRec (id : String) (c : MCompletion) : SessionRec :=
  { loop_id := id, session_id := c.session_id,
    status := .orphaned,
    project := "", project_name := "(orphaned entry)",
    state_file_path := none,
    task := "Orphaned: " ++ c.outcome.toText,
    started_at := c.ended_at,
    ended_at := some c.ended_at,
    duration_seconds := c.duration_seconds,
    iterations := some c.iterations,
    max_iterations := 0,
    completion_promise := none,
    error_reason := c.error_reason }

/-- Modelled from the spec (§4.2 step 3): reconcile one group into a session
record; an empty group produces nothing. -/
def buildRecord (marker : String → Bool) (elapsed : String → Nat) :
    String × MGroup → Option SessionRec
  | (id, g) =>
    match g.start, g.completion with
    | some s, some c => some (fullRec id s c)
    | some s, none => some (startOnlyRec marker elapsed id s)
    | none, some c => some (orphanRec id c)
    | none, none => none

/-- Is a session record active? -/
def isActiveRec (r : SessionRec) : Bool :=
  decide (r.status = SStatus.active)

/-- Modelled from the spec: the reconciled records in group order, before the
final presentation sort. -/
def reconcileRecords (marker : String → Bool) (elapsed : String → Nat)
    (events : List MEvent) : List SessionRec :=
  (groupEvents events).filterMap (buildRecord marker elapsed)

/-- Modelled from the spec (§4.2): the Session Reconciler `mergeSessions` of
`server/services/log-parser.ts` — group by effective identity, build records,
then order all active records first (original relative order preserved) and
the rest by `started_at` descending. -/
def mergeSessions (marker : String → Bool) (elapsed : String → Nat)
    (events : List MEvent) : List SessionRec :=
  let recs := reconcileRecords marker elapsed events
  recs.filter isActiveRec ++
    List.insertionSort (fun a b => strLe b.started_at a.started_at = true)
      (recs.filter fun r => !isActiveRec r)

/-!
Part 3: the Loop Canceller, embedded from `server/services/loop-manager.ts`
(provided as `src/unnamed/part_008`).  `existsSync` is the parameter
`fsExists`; Node's `resolve` is abstracted as the parameter `resolvePath`,
with `resolve(project, ".claude")` modelled as resolving the joined path.
The unlink on the success path is reflected in the returned filesystem;
an unlink exception is not modelled (no claim concerns it).
-/

/-- CancelResult from the source. -/
structure CancelResult where
  success : Bool
  message : String
deriving DecidableEq, Repr

/-- Does `s` start with the characters `p`? (code-point comparison, modelling
`String.prototype.startsWith`). -/
def charPrefixOf : List Char → List Char → Bool
  | [], _ => true
  | _ :: _, [] => false
  | a :: as, b :: bs => a.toNat = b.toNat && charPrefixOf as bs

/-- `s.startsWith p` on strings via code points. -/
def strStartsWith (s p : String) : Bool :=
  charPrefixOf p.data s.data

/-- Embedding of `validateStateFilePath`: refuse when the session has no
project, otherwise require the resolved state-file path to lie within the
resolved `<project>/.claude` directory. -/
def validateStateFilePath (resolvePath : String → String)
    (stateFilePath : String) (session : SessionRec) : Bool :=
  if session.project = "" then false
  else strStartsWith (resolvePath stateFilePath)
    (resolvePath (session.project ++ "/.claude"))

/-- Embedding of `cancelLoop` from `server/services/loop-manager.ts`
(src/unnamed/part_008 lines 33–76): reject a non-active session, a missing
(falsy) state-file path and a path failing the boundary check; report failure
when the state file no longer exists; otherwise delete it and report success.
Returns the result together with the filesystem afterwards. -/
def cancelLoop (fsExists : String → Bool) (resolvePath : String → String)
    (session : SessionRec) : CancelResult × (String → Bool) :=
  if session.status ≠ SStatus.active then
    (⟨false, "Session " ++ session.session_id ++ " is not active"⟩, fsExists)
  else
    let spf := session.state_file_path.getD ""
    if spf = "" then
      (⟨false, "No state file found for session " ++ session.session_id⟩,
        fsExists)
    else if ¬ validateStateFilePath resolvePath spf session then
      (⟨false, "Invalid state file path for session " ++ session.session_id⟩,
        fsExists)
    else if ¬ fsExists spf then
      (⟨false, "State file no longer exists for session " ++ session.session_id⟩,
        fsExists)
    else
      (⟨true, "Successfully cancelled loop " ++ session.session_id⟩,
        fun p => if p = spf then false else fsExists p)

/-!
Concrete scenario values used by witnesses and counterexamples.
-/

/-- A liveness oracle reporting every marker file absent. -/
def noMarker : String → Bool := fun _ => false

/-- A liveness oracle reporting every marker file present. -/
def allMarker : String → Bool := fun _ => true

/-- A constant live-duration clock. -/
def zeroElapsed : String → Nat := fun _ => 0

/-- The state-file path of the C9 scenario session. -/
def c9Path : String := "/proj/.claude/ralph-loop.S1.local.md"

/-- An active session record whose state-file path passes the boundary check
but whose marker file does not exist. -/
def c9Session : SessionRec :=
  { loop_id := "L1", session_id := "S1", status := .active,
    project := "/proj", project_name := "proj",
    state_file_path := some c9Path, task := "t", started_at := "2024",
    ended_at := none, duration_seconds := 0, iterations := none,
    max_iterations := 5, completion_promise := none, error_reason := none }

/-- A start event used in concrete reconciliation scenarios. -/
def wStart (l : String) (sid : String) (t : String) : MStart :=
  { loop_id := some l, session_id := sid, project := "/test",
    project_name := "test", state_file_path := none, task := some t,
    started_at := "2024-01-15T10:00:00Z", max_iterations := 10,
    completion_promise := none }

/-- A completion event used in concrete reconciliation scenarios. -/
def wCompletion (l : String) (sid : String) : MCompletion :=
  { loop_id := some l, session_id := sid, outcome := .cancelled,
    ended_at := "2024-01-15T10:30:00Z", duration_seconds := 1800,
    iterations := 5, error_reason := none }

/-- A start event with an explicit completion promise, for the C7 witness. -/
def c7Explicit : MStart :=
  { wStart "L" "S" "Task --completion-promise=EXTRACTED" with
    completion_promise := some "EXPLICIT" }

/-!
Theorems.  Helper lemmas come first, then one theorem per claim (with its
witness or counterexample where required).
-/

/-- Filtering with a purge set never drops a malformed line. -/
theorem filteredLinesOf_malformed (lines : List Line) (ids : List String) :
    (filteredLinesOf lines ids).filter Line.isMalformed
      = lines.filter Line.isMalformed := by
  induction lines with
  | nil => rfl
  | cons l t ih =>
    cases l with
    | malformed r =>
      simp [filteredLinesOf, List.filter_cons, Line.isMalformed] at ih ⊢
      exact ih
    | ok r e =>
      by_cases hk : effId e ∉ ids
      · simp [filteredLinesOf, List.filter_cons, Line.isMalformed, hk] at ih ⊢
        exact ih
      · simp [filteredLinesOf, List.filter_cons, Line.isMalformed, hk] at ih ⊢
        exact ih

/-- Claim C1: the spec (and the script's own safety guarantee 3) say one
rotation removes at most half of the lines.  The code violates this: on a
202-line log made of 51 complete two-line sessions and 100 incomplete lines,
rotation succeeds and removes 102 lines, while the permitted maximum is
`202 / 2 = 101` — the selection loop checks its quota only after adding a
whole two-line session, overshooting the clamp by one line. -/
theorem c1_fifty_percent_bound_violated :
    (rotateSessionLog c1Input).1.success = true ∧
    (rotateSessionLog c1Input).1.entriesBefore = 202 ∧
    (rotateSessionLog c1Input).1.entriesAfter = 100 ∧
    202 / 2 < 202 - 100 := by
  refine ⟨?_, ?_, ?_, ?_⟩ <;> decide

/-- Claim C2: the malformed lines of the log after rotation are exactly the
malformed lines before it, byte for byte and in order — a line that fails to
parse is never selected for deletion, on the commit path and on every
restore path alike. -/
theorem c2_malformed_lines_preserved (lines : List Line) :
    ((rotateSessionLog lines).2.1).filter Line.isMalformed
      = lines.filter Line.isMalformed := by
  simp only [rotateSessionLog]
  split
  · rfl
  · split
    · rfl
    · split
      · rfl
      · simp only [validateAndCommit]
        split
        · rfl
        · split
          · rfl
          · split
            · rfl
            · exact filteredLinesOf_malformed lines _

/-- Claim C3: if the post-filter validation fails — the filtered count
differs from the expected original-minus-removed count, or the filtered
output is empty — the validate-and-commit stage of rotation returns a
failure result with `sessionsPurged = 0`, leaves the log equal to the
pre-rotation content, and leaves no backup file behind. -/
theorem c3_validation_failure_restores (lines filtered : List Line)
    (ids : List String) (cnt n : Nat)
    (h : (filtered.length : Int) ≠ (n : Int) - (cnt : Int) ∨ filtered = []) :
    (validateAndCommit lines filtered ids cnt n).1.success = false ∧
    (validateAndCommit lines filtered ids cnt n).1.sessionsPurged = 0 ∧
    (validateAndCommit lines filtered ids cnt n).2.1 = lines ∧
    (validateAndCommit lines filtered ids cnt n).2.2 = false := by
  by_cases h1 : (filtered.length : Int) ≠ (n : Int) - (cnt : Int)
  · simp [validateAndCommit, if_pos h1]
  · have hf : filtered = [] := h.resolve_left h1
    subst hf
    simp [validateAndCommit, if_neg h1]
    split <;> simp

/-- Witness for C3 at a concrete input: an empty filtered output (with a
count mismatch as well) is refused, the original single-line log is kept and
no backup remains. -/
theorem c3_witness :
    ((((0 : Nat) : Int) ≠ ((1 : Nat) : Int) - ((2 : Nat) : Int) ∨
        ([] : List Line) = []) ∧
      (validateAndCommit [Line.malformed "x"] [] ["a"] 2 1).1.success = false ∧
      (validateAndCommit [Line.malformed "x"] [] ["a"] 2 1).1.sessionsPurged = 0 ∧
      (validateAndCommit [Line.malformed "x"] [] ["a"] 2 1).2.1
        = [Line.malformed "x"] ∧
      (validateAndCommit [Line.malformed "x"] [] ["a"] 2 1).2.2 = false) :=
  ⟨Or.inr rfl, c3_validation_failure_restores [Line.malformed "x"] [] ["a"] 2 1
    (Or.inr rfl)⟩

/-- Keys of the grouping map after one update: unchanged when the key is
already present, appended at the end otherwise. -/
theorem assocSet_map_fst (m : List (String × RGroup)) (k : String) (e : REntry) :
    (assocSet m k e).map Prod.fst =
      if k ∈ m.map Prod.fst then m.map Prod.fst
      else m.map Prod.fst ++ [k] := by
  induction m with
  | nil => simp [assocSet]
  | cons p rest ih =>
    obtain ⟨k0, g0⟩ := p
    by_cases hk : k0 = k
    · subst hk
      simp [assocSet]
    · simp only [assocSet, if_neg hk, List.map_cons]
      rw [ih]
      by_cases hm : k ∈ rest.map Prod.fst
      · simp [hm, Ne.symm hk]
      · simp [hm, Ne.symm hk]

/-- One grouping update preserves key distinctness. -/
theorem assocSet_nodup (m : List (String × RGroup)) (k : String) (e : REntry)
    (h : (m.map Prod.fst).Nodup) : ((assocSet m k e).map Prod.fst).Nodup := by
  rw [assocSet_map_fst]
  split
  · exact h
  · next hmem =>
    simp [List.nodup_append, h, hmem]

/-- The grouping map built by the rotation script has pairwise-distinct
keys. -/
theorem groupByLoopId_nodup (entries : List REntry) :
    ((groupByLoopId entries).map Prod.fst).Nodup := by
  suffices h : ∀ m : List (String × RGroup), (m.map Prod.fst).Nodup →
      ((entries.foldl (fun m e => assocSet m (effId e) e) m).map Prod.fst).Nodup by
    exact h [] (by simp)
  induction entries with
  | nil =>
    intro m hm
    simpa using hm
  | cons e t ih =>
    intro m hm
    simp only [List.foldl_cons]
    exact ih _ (assocSet_nodup m (effId e) e hm)

/-- Mapping the first component through a key-preserving `filterMap` yields a
sublist of the original keys. -/
theorem filterMap_fst_sublist {β γ : Type} (f : String × β → Option (String × γ))
    (hf : ∀ p q, f p = some q → q.1 = p.1) (l : List (String × β)) :
    ((l.filterMap f).map Prod.fst).Sublist (l.map Prod.fst) := by
  induction l with
  | nil => simp
  | cons p t ih =>
    cases hfp : f p with
    | none =>
      simp only [List.filterMap_cons, hfp, List.map_cons]
      exact ih.cons _
    | some q =>
      simp only [List.filterMap_cons, hfp, List.map_cons]
      rw [hf p q hfp]
      exact ih.cons₂ _

/-- The sorted complete-session list has pairwise-distinct identities
whenever the grouping map does. -/
theorem completeSessions_nodup (groups : List (String × RGroup))
    (h : (groups.map Prod.fst).Nodup) :
    ((completeSessions groups).map Prod.fst).Nodup := by
  unfold completeSessions
  have hf : ∀ (p : String × RGroup) (q : String × String),
      (match p.2.start, p.2.completion with
        | some s, some _ => some (p.1, s.started_at)
        | _, _ => none) = some q → q.1 = p.1 := by
    intro p q hq
    rcases hs : p.2.start with _ | s <;> rcases hc : p.2.completion with _ | c <;>
        rw [hs, hc] at hq <;> simp at hq
    simp [← hq]
  have hsub := filterMap_fst_sublist _ hf groups
  have hperm :=
    (List.perm_insertionSort (fun a b => strLe a.2 b.2 = true)
      (groups.filterMap fun kg =>
        match kg.2.start, kg.2.completion with
        | some s, some _ => some (kg.1, s.started_at)
        | _, _ => none)).map Prod.fst
  exact hperm.nodup_iff.mpr (hsub.nodup h)

/-- Invariant of the purge-selection loop: while the pending identities are
pairwise distinct and disjoint from the accumulated purge set, the
accumulated entry count stays exactly twice the purge-set size, because every
selected identity matches exactly 2 parsed entries. -/
theorem selectPurge_two_per_id (entries : List REntry) (toRemove : Nat)
    (sessions : List (String × String)) :
    ∀ (ids : List String) (cnt : Nat),
    (sessions.map Prod.fst).Nodup →
    (∀ k ∈ sessions.map Prod.fst, k ∉ ids) →
    cnt = 2 * ids.length →
    (selectPurge entries toRemove sessions ids cnt).2
      = 2 * (selectPurge entries toRemove sessions ids cnt).1.length := by
  induction sessions with
  | nil =>
    intro ids cnt _ _ hc
    simpa [selectPurge] using hc
  | cons s rest ih =>
    intro ids cnt hnd hdis hc
    have hndr : (rest.map Prod.fst).Nodup := (List.nodup_cons.mp (by simpa using hnd)).2
    have hhd : s.1 ∉ rest.map Prod.fst := (List.nodup_cons.mp (by simpa using hnd)).1
    simp only [selectPurge]
    by_cases hn : (entries.filter fun e => decide (effId e = s.1)).length ≠ 2
    · simp only [if_pos hn]
      exact ih ids cnt hndr (fun k hk => hdis k (by simp [hk])) hc
    · have hn2 : (entries.filter fun e => decide (effId e = s.1)).length = 2 :=
        not_ne_iff.mp hn
      have hs1 : s.1 ∉ ids := hdis s.1 (by simp)
      simp only [if_neg hn, if_neg hs1, hn2]
      by_cases hstop : toRemove ≤ cnt + 2
      · simp only [if_pos hstop]
        simp [hc, Nat.mul_add]
      · simp only [if_neg hstop]
        refine ih (ids ++ [s.1]) (cnt + 2) hndr ?_ ?_
        · intro k hk
          simp only [List.mem_append, List.mem_singleton]
          rintro (hin | hrfl)
          · exact hdis k (by simp [hk]) hin
          · exact hhd (hrfl ▸ hk)
        · simp [hc, Nat.mul_add]

/-- On the success path of the validate-and-commit stage, the reported
after-count plus the purged entry count equals the before-count; with the
purged entry count equal to twice the purge-set size this gives the exact
two-lines-per-session accounting. -/
theorem validateAndCommit_success (lines filtered : List Line)
    (ids : List String) (cnt n : Nat) (hcnt : cnt = 2 * ids.length)
    (h : (validateAndCommit lines filtered ids cnt n).1.success = true) :
    (validateAndCommit lines filtered ids cnt n).1.entriesAfter
        + 2 * (validateAndCommit lines filtered ids cnt n).1.sessionsPurged
      = (validateAndCommit lines filtered ids cnt n).1.entriesBefore := by
  by_cases h1 : (filtered.length : Int) ≠ (n : Int) - (cnt : Int)
  · simp [validateAndCommit, if_pos h1] at h
  · have he : (filtered.length : Int) = (n : Int) - (cnt : Int) := not_ne_iff.mp h1
    by_cases h2 : filtered.length = 0
    · simp [validateAndCommit, if_neg h1, h2] at h
      split at h <;> simp at h
    · by_cases h3 : filtered.any Line.isMalformed
      · simp [validateAndCommit, if_neg h1, h2, h3] at h
      · simp only [validateAndCommit, if_neg h1, h2, h3]
        simp only [if_neg, Bool.false_eq_true, if_false]
        subst hcnt
        omega

/-- Claim C10: whenever rotation succeeds with `sessionsPurged > 0`, the
reported after-count equals the before-count minus exactly two lines per
purged session — any group whose identity matches more or fewer than exactly
2 parsed entries is skipped by the selection loop. -/
theorem c10_two_lines_per_purged_session (lines : List Line)
    (hs : (rotateSessionLog lines).1.success = true)
    (hp : 0 < (rotateSessionLog lines).1.sessionsPurged) :
    (rotateSessionLog lines).1.entriesAfter
        + 2 * (rotateSessionLog lines).1.sessionsPurged
      = (rotateSessionLog lines).1.entriesBefore := by
  by_cases h1 : lines.length ≤ MAX_SESSION_ENTRIES
  · simp [rotateSessionLog, h1] at hp
  · by_cases h2 :
        (completeSessions (groupByLoopId (lines.filterMap Line.parsed))).isEmpty = true
    · simp [rotateSessionLog, h1, h2] at hp
    · by_cases h3 : (selectPurge (lines.filterMap Line.parsed)
          (min (lines.length - MAX_SESSION_ENTRIES) (lines.length / 2))
          (completeSessions (groupByLoopId (lines.filterMap Line.parsed)))
          [] 0).1.isEmpty = true
      · simp [rotateSessionLog, h1, h2, h3] at hp
      · have hred : rotateSessionLog lines = validateAndCommit lines
            (filteredLinesOf lines (selectPurge (lines.filterMap Line.parsed)
              (min (lines.length - MAX_SESSION_ENTRIES) (lines.length / 2))
              (completeSessions (groupByLoopId (lines.filterMap Line.parsed)))
              [] 0).1)
            (selectPurge (lines.filterMap Line.parsed)
              (min (lines.length - MAX_SESSION_ENTRIES) (lines.length / 2))
              (completeSessions (groupByLoopId (lines.filterMap Line.parsed)))
              [] 0).1
            (selectPurge (lines.filterMap Line.parsed)
              (min (lines.length - MAX_SESSION_ENTRIES) (lines.length / 2))
              (completeSessions (groupByLoopId (lines.filterMap Line.parsed)))
              [] 0).2
            lines.length := by
          simp [rotateSessionLog, h1, h2, h3]
        have hcnt := selectPurge_two_per_id (lines.filterMap Line.parsed)
          (min (lines.length - MAX_SESSION_ENTRIES) (lines.length / 2))
          (completeSessions (groupByLoopId (lines.filterMap Line.parsed)))
          [] 0
          (completeSessions_nodup _ (groupByLoopId_nodup _))
          (by simp)
          (by simp)
        rw [hred] at hs ⊢
        exact validateAndCommit_success _ _ _ _ _ hcnt hs

/-- Witness for C10: on a 101-line log with one complete session and 99
incomplete lines, rotation succeeds purging that one session, and
`99 + 2 * 1 = 101`. -/
theorem c10_witness :
    (rotateSessionLog c10Input).1.success = true ∧
    0 < (rotateSessionLog c10Input).1.sessionsPurged ∧
    (rotateSessionLog c10Input).1.entriesAfter
        + 2 * (rotateSessionLog c10Input).1.sessionsPurged
      = (rotateSessionLog c10Input).1.entriesBefore := by
  have hs : (rotateSessionLog c10Input).1.success = true := by decide
  have hp : 0 < (rotateSessionLog c10Input).1.sessionsPurged := by decide
  exact ⟨hs, hp, c10_two_lines_per_purged_session c10Input hs hp⟩

/-- Code-point order on character lists is total. -/
theorem charListLe_total (a : List Char) :
    ∀ b, charListLe a b = true ∨ charListLe b a = true := by
  induction a with
  | nil =>
    intro b
    left
    rfl
  | cons x xs ih =>
    intro b
    cases b with
    | nil =>
      right
      rfl
    | cons y ys =>
      by_cases h1 : x.toNat < y.toNat
      · left
        simp [charListLe, h1]
      · by_cases h2 : y.toNat < x.toNat
        · right
          simp [charListLe, h2]
        · rcases ih ys with h | h
          · left
            simp [charListLe, h1, h2, h]
          · right
            simp [charListLe, h1, h2, h]

/-- Code-point order on character lists is transitive. -/
theorem charListLe_trans (a : List Char) :
    ∀ b c, charListLe a b = true → charListLe b c = true →
      charListLe a c = true := by
  induction a with
  | nil =>
    intro b c _ _
    rfl
  | cons x xs ih =>
    intro b c hab hbc
    cases b with
    | nil => simp [charListLe] at hab
    | cons y ys =>
      cases c with
      | nil => simp [charListLe] at hbc
      | cons z zs =>
        by_cases hxy : x.toNat < y.toNat
        · by_cases hyz : y.toNat < z.toNat
          · have hxz : x.toNat < z.toNat := by omega
            simp [charListLe, hxz]
          · by_cases hzy : z.toNat < y.toNat
            · simp [charListLe, hyz, hzy] at hbc
            · have hxz : x.toNat < z.toNat := by omega
              simp [charListLe, hxz]
        · by_cases hyx : y.toNat < x.toNat
          · simp [charListLe, hxy, hyx] at hab
          · by_cases hyz : y.toNat < z.toNat
            · have hxz : x.toNat < z.toNat := by omega
              simp [charListLe, hxz]
            · by_cases hzy : z.toNat < y.toNat
              · simp [charListLe, hyz, hzy] at hbc
              · have hxz : ¬ x.toNat < z.toNat := by omega
                have hzx : ¬ z.toNat < x.toNat := by omega
                simp only [charListLe, if_neg hxy, if_neg hyx] at hab
                simp only [charListLe, if_neg hyz, if_neg hzy] at hbc
                simp only [charListLe, if_neg hxz, if_neg hzx]
                exact ih ys zs hab hbc

/-- The reconciler's output is a permutation of the unsorted record list. -/
theorem mergeSessions_perm (marker : String → Bool) (elapsed : String → Nat)
    (events : List MEvent) :
    (mergeSessions marker elapsed events).Perm
      (reconcileRecords marker elapsed events) := by
  unfold mergeSessions
  refine (List.Perm.append_left _ (List.perm_insertionSort _ _)).trans ?_
  exact List.filter_append_perm _ _

/-- A reconciliation producing exactly one record returns exactly that record
(the presentation sort is the identity on one element). -/
theorem mergeSessions_single (marker : String → Bool) (elapsed : String → Nat)
    (events : List MEvent) (r : SessionRec)
    (h : reconcileRecords marker elapsed events = [r]) :
    mergeSessions marker elapsed events = [r] := by
  unfold mergeSessions
  rw [h]
  by_cases ha : isActiveRec r
  · simp [List.filter_cons, ha]
  · simp [List.filter_cons, ha]

/-- Claim C4: two start events sharing a `session_id` but carrying distinct
`loop_id`s reconcile into two separate session records, each reflecting only
its own completion (if any); and a start event lacking a `loop_id` is grouped
under its `session_id` as identity. -/
theorem c4_loop_id_identity :
    (∀ (marker : String → Bool) (elapsed : String → Nat) (e1 e2 : MStart)
        (c : MCompletion) (l1 l2 : String),
      e1.loop_id = some l1 → c.loop_id = some l1 → e2.loop_id = some l2 →
      l1 ≠ l2 → e1.session_id = e2.session_id →
      (mergeSessions marker elapsed
          [.start e1, .completion c, .start e2]).length = 2 ∧
      (∃ s ∈ mergeSessions marker elapsed [.start e1, .completion c, .start e2],
        s.loop_id = l1 ∧ s.status = c.outcome.toStatus ∧
        s.ended_at = some c.ended_at ∧ s.iterations = some c.iterations) ∧
      (∃ s ∈ mergeSessions marker elapsed [.start e1, .completion c, .start e2],
        s.loop_id = l2 ∧ s.status = startStatus marker e2 ∧
        s.ended_at = none ∧ s.iterations = none)) ∧
    (∀ (marker : String → Bool) (elapsed : String → Nat) (e : MStart),
      e.loop_id = none →
      ∃ s, mergeSessions marker elapsed [.start e] = [s] ∧
        s.loop_id = e.session_id) := by
  constructor
  · intro marker elapsed e1 e2 c l1 l2 h1 hc h2 hne _
    have hg : groupEvents [.start e1, .completion c, .start e2]
        = [(l1, ⟨some e1, some c⟩), (l2, ⟨some e2, none⟩)] := by
      simp [groupEvents, mAssocSet, MEvent.effectiveId, h1, hc, h2, hne,
        mApplyEvent]
    have hrecs : reconcileRecords marker elapsed
          [.start e1, .completion c, .start e2]
        = [fullRec l1 e1 c, startOnlyRec marker elapsed l2 e2] := by
      simp [reconcileRecords, hg, buildRecord]
    have hperm := mergeSessions_perm marker elapsed
      [.start e1, .completion c, .start e2]
    rw [hrecs] at hperm
    refine ⟨by simpa using hperm.length_eq, ?_, ?_⟩
    · exact ⟨fullRec l1 e1 c, hperm.mem_iff.mpr (by simp), rfl, rfl, rfl, rfl⟩
    · exact ⟨startOnlyRec marker elapsed l2 e2, hperm.mem_iff.mpr (by simp),
        rfl, rfl, rfl, rfl⟩
  · intro marker elapsed e he
    refine ⟨startOnlyRec marker elapsed e.session_id e, ?_, rfl⟩
    have hrec : reconcileRecords marker elapsed [.start e]
        = [startOnlyRec marker elapsed e.session_id e] := by
      simp [reconcileRecords, groupEvents, mAssocSet, MEvent.effectiveId, he,
        mApplyEvent, buildRecord]
    exact mergeSessions_single _ _ _ _ hrec

/-- Witness for C4 at concrete inputs: a cancel-then-restart pair in the same
terminal reconciles to two records, and a legacy start without loop_id keeps
its session_id as identity. -/
theorem c4_witness :
    ((wStart "A" "S" "t1").loop_id = some "A" ∧
      (wCompletion "A" "S").loop_id = some "A" ∧
      (wStart "B" "S" "t2").loop_id = some "B" ∧
      ("A" : String) ≠ "B" ∧
      (wStart "A" "S" "t1").session_id = (wStart "B" "S" "t2").session_id ∧
      (mergeSessions noMarker zeroElapsed
        [.start (wStart "A" "S" "t1"), .completion (wCompletion "A" "S"),
          .start (wStart "B" "S" "t2")]).length = 2) ∧
    ({ wStart "A" "S" "t1" with loop_id := none } : MStart).loop_id = none ∧
    ∃ s, mergeSessions noMarker zeroElapsed
        [.start ({ wStart "A" "S" "t1" with loop_id := none } : MStart)] = [s] ∧
      s.loop_id = ({ wStart "A" "S" "t1" with loop_id := none } : MStart).session_id := by
  refine ⟨⟨rfl, rfl, rfl, by decide, rfl, ?_⟩, rfl, ?_⟩
  · exact (c4_loop_id_identity.1 noMarker zeroElapsed (wStart "A" "S" "t1")
      (wStart "B" "S" "t2") (wCompletion "A" "S") "A" "B" rfl rfl rfl
      (by decide) rfl).1
  · exact c4_loop_id_identity.2 noMarker zeroElapsed
      ({ wStart "A" "S" "t1" with loop_id := none }) rfl

/-- Claim C5: a start-only group with a marker path whose file is absent
reconciles to status orphaned; with the marker present, or with no marker
path at all, it reconciles to status active. -/
theorem c5_orphan_classification :
    (∀ (marker : String → Bool) (elapsed : String → Nat) (e : MStart)
        (p : String),
      e.state_file_path = some p → marker p = false →
      (mergeSessions marker elapsed [.start e]).map SessionRec.status
        = [SStatus.orphaned]) ∧
    (∀ (marker : String → Bool) (elapsed : String → Nat) (e : MStart)
        (p : String),
      e.state_file_path = some p → marker p = true →
      (mergeSessions marker elapsed [.start e]).map SessionRec.status
        = [SStatus.active]) ∧
    (∀ (marker : String → Bool) (elapsed : String → Nat) (e : MStart),
      e.state_file_path = none →
      (mergeSessions marker elapsed [.start e]).map SessionRec.status
        = [SStatus.active]) := by
  refine ⟨?_, ?_, ?_⟩
  · intro marker elapsed e p hsf hmk
    rw [mergeSessions_single marker elapsed [.start e]
      (startOnlyRec marker elapsed ((MEvent.start e).effectiveId) e) rfl]
    simp [startOnlyRec, startStatus, hsf, hmk]
  · intro marker elapsed e p hsf hmk
    rw [mergeSessions_single marker elapsed [.start e]
      (startOnlyRec marker elapsed ((MEvent.start e).effectiveId) e) rfl]
    simp [startOnlyRec, startStatus, hsf, hmk]
  · intro marker elapsed e hsf
    rw [mergeSessions_single marker elapsed [.start e]
      (startOnlyRec marker elapsed ((MEvent.start e).effectiveId) e) rfl]
    simp [startOnlyRec, startStatus, hsf]

/-- Witness for C5 at a concrete input: the same start event is orphaned
under the all-absent oracle and active under the all-present oracle, and
active when it has no marker path. -/
theorem c5_witness :
    (({ wStart "A" "S" "t" with state_file_path := some "/x" } : MStart).state_file_path
        = some "/x" ∧
      noMarker "/x" = false ∧
      (mergeSessions noMarker zeroElapsed
        [.start ({ wStart "A" "S" "t" with state_file_path := some "/x" })]).map
          SessionRec.status = [SStatus.orphaned]) ∧
    (allMarker "/x" = true ∧
      (mergeSessions allMarker zeroElapsed
        [.start ({ wStart "A" "S" "t" with state_file_path := some "/x" })]).map
          SessionRec.status = [SStatus.active]) ∧
    ((wStart "A" "S" "t").state_file_path = none ∧
      (mergeSessions noMarker zeroElapsed [.start (wStart "A" "S" "t")]).map
          SessionRec.status = [SStatus.active]) :=
  ⟨⟨rfl, rfl, c5_orphan_classification.1 noMarker zeroElapsed
      ({ wStart "A" "S" "t" with state_file_path := some "/x" }) "/x" rfl rfl⟩,
    ⟨rfl, c5_orphan_classification.2.1 allMarker zeroElapsed
      ({ wStart "A" "S" "t" with state_file_path := some "/x" }) "/x" rfl rfl⟩,
    ⟨rfl, c5_orphan_classification.2.2 noMarker zeroElapsed
      (wStart "A" "S" "t") rfl⟩⟩

/-- Claim C6: a group holding only a completion event still reconciles to a
session record: status orphaned, placeholder project name, task synthesized
from the outcome, and timing/iteration fields taken from the completion
itself. -/
theorem c6_completion_only_orphan (marker : String → Bool)
    (elapsed : String → Nat) (c : MCompletion) :
    ∃ r, mergeSessions marker elapsed [.completion c] = [r] ∧
      r.status = SStatus.orphaned ∧
      r.project_name = "(orphaned entry)" ∧
      r.task = "Orphaned: " ++ c.outcome.toText ∧
      r.started_at = c.ended_at ∧
      r.ended_at = some c.ended_at ∧
      r.duration_seconds = c.duration_seconds ∧
      r.iterations = some c.iterations :=
  ⟨orphanRec ((MEvent.completion c).effectiveId) c,
    mergeSessions_single _ _ _ _ rfl, rfl, rfl, rfl, rfl, rfl, rfl, rfl⟩

/-- Claim C7: an explicit non-null completion_promise is used verbatim;
otherwise a bare `--completion-promise=VALUE` flag in the task is stripped
from the displayed task with its first token exposed as the promise, a quoted
multi-word value is truncated to its first token, and a task without the flag
yields a null promise with the task unchanged. -/
theorem c7_completion_promise_resolution :
    (∀ (marker : String → Bool) (elapsed : String → Nat) (e : MStart)
        (v : String),
      e.completion_promise = some v →
      ∃ s, mergeSessions marker elapsed [.start e] = [s] ∧
        s.completion_promise = some v) ∧
    ((mergeSessions noMarker zeroElapsed
        [.start (wStart "L" "S" "Do something --completion-promise=DONE")]).map
          (fun s => (s.task, s.completion_promise))
      = [("Do something", some "DONE")]) ∧
    ((mergeSessions noMarker zeroElapsed
        [.start (wStart "L" "S" "Do work --completion-promise=\"ALL DONE\"")]).map
          (fun s => s.completion_promise)
      = [some "ALL"]) ∧
    ((mergeSessions noMarker zeroElapsed
        [.start (wStart "L" "S" "Just a simple task")]).map
          (fun s => (s.task, s.completion_promise))
      = [("Just a simple task", none)]) := by
  refine ⟨?_, by decide, by decide, by decide⟩
  intro marker elapsed e v hv
  refine ⟨startOnlyRec marker elapsed ((MEvent.start e).effectiveId) e,
    mergeSessions_single _ _ _ _ rfl, ?_⟩
  simp [startOnlyRec, resolveTaskPromise, hv]

/-- Witness for C7 at a concrete input: an explicit promise wins over the
flag embedded in the task text. -/
theorem c7_witness :
    c7Explicit.completion_promise = some "EXPLICIT" ∧
    ∃ s, mergeSessions noMarker zeroElapsed [.start c7Explicit] = [s] ∧
      s.completion_promise = some "EXPLICIT" :=
  ⟨rfl, c7_completion_promise_resolution.1 noMarker zeroElapsed c7Explicit
    "EXPLICIT" rfl⟩

/-- Claim C8: reconciliation returns all active records first, preserving
their pre-sort relative order among themselves, followed by the remaining
records sorted by started_at descending. -/
theorem c8_presentation_order (marker : String → Bool) (elapsed : String → Nat)
    (events : List MEvent) :
    ∃ rest : List SessionRec,
      mergeSessions marker elapsed events =
        (reconcileRecords marker elapsed events).filter isActiveRec ++ rest ∧
      rest.Perm ((reconcileRecords marker elapsed events).filter
        (fun r => !isActiveRec r)) ∧
      rest.Pairwise (fun a b => strLe b.started_at a.started_at = true) := by
  refine ⟨List.insertionSort (fun a b => strLe b.started_at a.started_at = true)
      ((reconcileRecords marker elapsed events).filter fun r => !isActiveRec r),
    rfl, List.perm_insertionSort _ _, ?_⟩
  haveI : IsTotal SessionRec
      (fun a b => strLe b.started_at a.started_at = true) :=
    ⟨fun a b => charListLe_total _ _⟩
  haveI : IsTrans SessionRec
      (fun a b => strLe b.started_at a.started_at = true) :=
    ⟨fun _ _ _ hab hbc => charListLe_trans _ _ _ hbc hab⟩
  exact List.sorted_insertionSort _ _

/-- Claim C9 counterexample: an active session whose state-file path passes
the boundary check but whose file is absent makes cancelLoop report failure,
not success-of-intent as the spec claims. -/
theorem c9_counterexample :
    c9Session.status = SStatus.active ∧
    c9Session.state_file_path = some c9Path ∧
    validateStateFilePath (fun s => s) c9Path c9Session = true ∧
    noMarker c9Path = false ∧
    (cancelLoop noMarker (fun s => s) c9Session).1.success = false :=
  ⟨rfl, rfl, by decide, rfl, by decide⟩

/-- Claim C9 as amended: when cancelLoop is invoked on an active session
whose non-empty marker path passes the boundary check but whose marker file
no longer exists, it returns a failure result whose message notes the state
file no longer exists. -/
theorem c9_missing_state_file_fails (fsExists : String → Bool)
    (resolvePath : String → String) (session : SessionRec) (p : String)
    (hstat : session.status = SStatus.active)
    (hsf : session.state_file_path = some p) (hp : p ≠ "")
    (hval : validateStateFilePath resolvePath p session = true)
    (hfs : fsExists p = false) :
    (cancelLoop fsExists resolvePath session).1 =
      ⟨false, "State file no longer exists for session "
        ++ session.session_id⟩ := by
  simp [cancelLoop, hstat, hsf, hp, hval, hfs]

/-- Witness for the amended C9 at the concrete scenario. -/
theorem c9_witness :
    (cancelLoop noMarker (fun s => s) c9Session).1 =
      ⟨false, "State file no longer exists for session "
        ++ c9Session.session_id⟩ :=
  c9_missing_state_file_fails noMarker (fun s => s) c9Session c9Path rfl rfl
    (by decide) (by decide) rfl
